import Mathlib

/-!
Shallow embedding of the go-nogo-scraper core pipeline (src/server.js,
first pipeline variant unless noted otherwise) and proofs about it.

Conventions used throughout:
* JS strings are modelled as `List Char`; `String.includes` is list-infix.
* JS numbers are modelled exactly: all quantities appearing in the code are
  integers or dyadic rationals that IEEE doubles represent exactly at the
  magnitudes involved, so `Math.round`, the quartile bounds and the fee/tax
  arithmetic are embedded with exact integer / rational arithmetic.
* `Math.round(x)` (round half toward positive infinity) is `⌊x + 1/2⌋`.
-/

namespace Scraper

/-- Model of `Math.round(p / q)` for nonnegative integers `p`, `q > 0`:
`⌊p/q + 1/2⌋ = (2p + q) / (2q)` in natural-number (floor) division. -/
def jsRoundNat (p q : ℕ) : ℕ := (2 * p + q) / (2 * q)

/-- Model of JS `Math.round` on an exact rational: `⌊x + 1/2⌋`
(JS rounds half toward positive infinity). -/
def jsRoundQ (x : ℚ) : ℤ := ⌊x + 1 / 2⌋

/-- Model of `String.prototype.toLowerCase` restricted to the character
classes that occur in the pipeline: ASCII capitals are lowered, every
other character (digits, punctuation, Japanese text) is unchanged. -/
def jsToLower (c : Char) : Char :=
  if 'A' ≤ c ∧ c ≤ 'Z' then Char.ofNat (c.toNat + 32) else c

/-- Model of `String.prototype.includes`: `needle` occurs contiguously in
`haystack`. -/
def jsIncludes (haystack needle : List Char) : Bool :=
  decide (needle <:+: haystack)

/-- Digit run parsed as a base-10 natural number
(`parseInt` on an all-digit string, exact). -/
def digitsToNat (ds : List Char) : ℕ :=
  ds.foldl (fun acc c => 10 * acc + (c.toNat - 48)) 0

/-- Embedding of `extractPrice` (src/server.js lines 48-55): an empty
(falsy) string yields 0; otherwise every non-digit character is removed
(`replace(/[^\d]/g, '')`, where `\d` is ASCII `0-9`) and the remaining
digit run is parsed with `parseInt`; `parseInt("")` is `NaN`, mapped
to 0 by the `isNaN` guard. -/
def extractPrice (priceText : List Char) : ℕ :=
  if priceText = [] then 0
  else
    let numStr := priceText.filter Char.isDigit
    if numStr = [] then 0 else digitsToNat numStr

/-- The Unicode replacement character U+FFFD produced by lossy decodes. -/
def replChar : Char := Char.ofNat 0xFFFD

/-- Text contains the replacement character (`text.includes('�')`). -/
def containsRepl (s : List Char) : Bool := s.contains replChar

/-- Embedding of `decodeResponse` (src/server.js lines 60-91), on the path
where the external `iconv-lite` decoder is available.  The three decoders
(`Buffer.toString('utf8')`, `iconv.decode(·, 'shift_jis')`,
`iconv.decode(·, 'euc-jp')`) are external library collaborators and are
taken as parameters; a byte buffer is `List ℕ`.  The control flow is the
code's: return the UTF-8 decoding if it is free of U+FFFD, else the
Shift_JIS decoding if free of U+FFFD, else the EUC-JP decoding if free of
U+FFFD, else the Shift_JIS decoding (the code comment reads
「Shift_JISを優先」, i.e. prefer Shift_JIS). -/
def decodeResponse (utf8Dec sjisDec eucDec : List ℕ → List Char)
    (buffer : List ℕ) : List Char :=
  let utf8Text := utf8Dec buffer
  if containsRepl utf8Text = false then utf8Text
  else
    let sjisText := sjisDec buffer
    if containsRepl sjisText = false then sjisText
    else
      let eucText := eucDec buffer
      if containsRepl eucText = false then eucText
      else sjisText

/-- Model of `Buffer.toString('utf8')` on buffers whose bytes are either
ASCII or bytes that can start no valid UTF-8 sequence (such as 0x80 and
0xB1, used below): ASCII bytes decode to themselves, each such invalid
byte decodes to one U+FFFD. -/
def utf8DecModel (buffer : List ℕ) : List Char :=
  buffer.map fun b => if b < 0x80 then Char.ofNat b else replChar

/-- Model of `iconv.decode(·, 'shift_jis')` on buffers of single-byte
Shift_JIS code points: ASCII bytes decode to themselves, bytes
0xA1-0xDF decode to the half-width katakana block U+FF61-U+FF9F, and
bytes undefined as single-byte Shift_JIS (such as 0x80) decode to
U+FFFD. -/
def sjisDecModel (buffer : List ℕ) : List Char :=
  buffer.map fun b =>
    if b < 0x80 then Char.ofNat b
    else if 0xA1 ≤ b ∧ b ≤ 0xDF then Char.ofNat (0xFF61 + (b - 0xA1))
    else replChar

/-- Model of `iconv.decode(·, 'euc-jp')` on buffers whose non-ASCII bytes
form no complete EUC-JP sequence (0x80 is invalid; a lead byte such as
0xB1 at the end of the buffer is truncated): ASCII bytes decode to
themselves, every such byte decodes to U+FFFD. -/
def eucDecModel (buffer : List ℕ) : List Char :=
  buffer.map fun b => if b < 0x80 then Char.ofNat b else replChar

/-- One scraped listing as pushed by `parseAucfanResults`
(title, price, date, url, imageURL, platform); text fields are
`List Char`, the price is the nonnegative integer produced by
`extractPrice`. -/
structure Listing where
  title : List Char
  price : ℕ
  date : List Char
  url : List Char
  imageURL : List Char
  platform : List Char
deriving DecidableEq

/-- The advertisement-keyword denylist of `filterRecentAndValidPrices`
(src/server.js lines 107-111), in source order. -/
def adKeywords : List (List Char) :=
  ["初月無料".data, "月額".data, "プレミアム".data, "会員".data, "登録".data,
   "2200円".data, "998円".data, "入会".data, "オークファン".data,
   "aucfan".data, "無料".data, "free".data, "円/税込".data, "プラン".data,
   "サービス".data, "利用".data, "アップグレード".data, "課金".data,
   "支払い".data]

/-- Stage A predicate of `filterRecentAndValidPrices` (lines 102-129):
keep a listing unless its lower-cased title contains an advertisement
keyword or its price is below 500. -/
def stageAKeep (item : Listing) : Bool :=
  let titleLower := item.title.map jsToLower
  let hasAdKeyword := adKeywords.any fun kw => jsIncludes titleLower kw
  !(hasAdKeyword || decide (item.price < 500))

/-- Stage A of `filterRecentAndValidPrices`: the ad/noise filter. -/
def stageA (results : List Listing) : List Listing :=
  results.filter stageAKeep

/-- Stages A plus the recency cut of `filterRecentAndValidPrices`
(line 134): the first 20 survivors (`filtered.slice(0, 20)`). -/
def recentOf (results : List Listing) : List Listing :=
  (stageA results).take 20

/-- The ascending price list of lines 139: `map(r => r.price)` followed by
`sort((a, b) => a - b)`. -/
def sortedPricesOf (l : List Listing) : List ℕ :=
  List.insertionSort (· ≤ ·) (l.map Listing.price)

/-- First quartile of lines 141-143: `prices[Math.floor(prices.length * 0.25)]`;
for the integer lengths involved `Math.floor(n * 0.25) = n / 4` exactly. -/
def q1Of (l : List Listing) : ℕ :=
  (sortedPricesOf l).getD ((sortedPricesOf l).length / 4) 0

/-- Third quartile of lines 142-144: `prices[Math.floor(prices.length * 0.75)]`;
for the integer lengths involved `Math.floor(n * 0.75) = 3n / 4` exactly. -/
def q3Of (l : List Listing) : ℕ :=
  (sortedPricesOf l).getD (3 * (sortedPricesOf l).length / 4) 0

/-- The in-range predicate of lines 148-152:
`price >= Math.max(500, q1 - iqr * 1.5) && price <= q3 + iqr * 1.5` with
`iqr = q3 - q1`.  All quantities are dyadic with at most one fractional
bit, so doubling both sides gives an exact integer embedding:
`max 1000 (2q1 - 3iqr) ≤ 2 price ∧ 2 price ≤ 2q3 + 3iqr`. -/
def iqrKeep (q1 q3 : ℤ) (item : Listing) : Bool :=
  let iqr := q3 - q1
  decide (max 1000 (2 * q1 - 3 * iqr) ≤ 2 * (item.price : ℤ)) &&
  decide (2 * (item.price : ℤ) ≤ 2 * q3 + 3 * iqr)

/-- Stage C of `filterRecentAndValidPrices` (lines 137-163) applied to the
post-slice survivors: the IQR filter, falling back to the first ten
pre-rejection listings when it would empty the result. -/
def stageC (recent : List Listing) : List Listing :=
  if 0 < (recent.filter (iqrKeep (q1Of recent) (q3Of recent))).length then
    recent.filter (iqrKeep (q1Of recent) (q3Of recent))
  else recent.take 10

/-- Embedding of `filterRecentAndValidPrices` (src/server.js lines
96-166, first variant): early return on an empty input, Stage A ad/noise
filter, cut to the first 20, then the IQR-based Stage C when at least 5
listings survive the cut. -/
def filterRecentAndValidPrices (results : List Listing) : List Listing :=
  if results = [] then results
  else if 5 ≤ (recentOf results).length then stageC (recentOf results)
  else recentOf results

/-- The average-price statistic of `parseAucfanResults` (lines 449-463):
`Math.round(total / prices.length)` on the filtered listings, 0 when the
set is empty. -/
def avgPriceOf (l : List Listing) : ℕ :=
  if l = [] then 0
  else
    let prices := l.map Listing.price
    jsRoundNat prices.sum prices.length

/-- Recommendation tiers, named after the decision strings of
`evaluatePurchase` (判定不可, 判定困難, 仕入れ推奨, 仕入れ検討, 慎重検討,
仕入れNG). -/
inductive Tier where
  | noData
  | insufficientData
  | recommended
  | consider
  | caution
  | reject
deriving DecidableEq

/-- The record returned by `evaluatePurchase`: its decision tier and the
`totalCost` field (the emoji/reason strings carry no further data). -/
structure Judgment where
  tier : Tier
  totalCost : ℕ
deriving DecidableEq

/-- The single-rounding cost basis of `evaluatePurchase` (lines 598 and
603): `Math.round(auctionPrice * 1.155)`, with `1.155 = 231/200`, so the
exact value is `⌊231a/200 + 1/2⌋ = (462a + 200) / 400`. -/
def totalCostSingle (a : ℕ) : ℕ := jsRoundNat (231 * a) 200

/-- The profit of line 604: `avgPrice - totalCost`. -/
def purchaseProfit (auctionPrice avgPrice : ℕ) : ℤ :=
  (avgPrice : ℤ) - (totalCostSingle auctionPrice : ℤ)

/-- The profit rate of line 605:
`Math.round((profit / totalCost) * 100)`, evaluated exactly over ℚ.
Defined for a positive acquisition price (the callers validate it). -/
def purchaseProfitRate (auctionPrice avgPrice : ℕ) : ℤ :=
  jsRoundQ ((purchaseProfit auctionPrice avgPrice : ℚ) /
    (totalCostSingle auctionPrice : ℚ) * 100)

/-- Embedding of `evaluatePurchase` (src/server.js lines 583-636, first
variant): no-data guard, insufficient-data guard, then classification of
the rounded profit rate against the thresholds 50, 20 and 0. -/
def evaluatePurchase (auctionPrice avgPrice count : ℕ) : Judgment :=
  if avgPrice = 0 ∨ count = 0 then ⟨Tier.noData, auctionPrice⟩
  else if count < 3 then ⟨Tier.insufficientData, totalCostSingle auctionPrice⟩
  else if 50 ≤ purchaseProfitRate auctionPrice avgPrice then
    ⟨Tier.recommended, totalCostSingle auctionPrice⟩
  else if 20 ≤ purchaseProfitRate auctionPrice avgPrice then
    ⟨Tier.consider, totalCostSingle auctionPrice⟩
  else if 0 ≤ purchaseProfitRate auctionPrice avgPrice then
    ⟨Tier.caution, totalCostSingle auctionPrice⟩
  else ⟨Tier.reject, totalCostSingle auctionPrice⟩

/-- The stepwise handling fee of `processQuery` (line 741):
`Math.round(auctionPrice * 0.05)` with `0.05 = 5/100`. -/
def handlingFee (a : ℕ) : ℕ := jsRoundNat (5 * a) 100

/-- The subtotal of `processQuery` (line 742): price plus handling fee. -/
def subtotalOf (a : ℕ) : ℕ := a + handlingFee a

/-- The consumption tax of `processQuery` (line 743):
`Math.round(subtotal * 0.10)` with `0.10 = 1/10`. -/
def consumptionTax (a : ℕ) : ℕ := jsRoundNat (subtotalOf a) 10

/-- The stepwise total cost of `processQuery` (line 744):
subtotal plus consumption tax. -/
def totalCostStep (a : ℕ) : ℕ := subtotalOf a + consumptionTax a

/-- Written from the specification's words, for the refinement claim:
`totalCost = round(acquisitionPrice × (1+feeRate) × (1+taxRate))` with
`feeRate = 0.05` and `taxRate = 0.10`, evaluated exactly over ℚ. -/
def specCostBasis (a : ℕ) : ℤ :=
  jsRoundQ ((a : ℚ) * (1 + 5 / 100) * (1 + 10 / 100))

/-- Embedding of the guarded push of the first `parseAucfanResults`
variant (src/server.js lines 323-339): a candidate is emitted only when
its title is truthy, longer than 3 characters and its price exceeds 500;
the pushed record clips the title with `substring(0, 100)`. -/
def emitListingMain (title : List Char) (price : ℕ)
    (date url platform : List Char) : Option Listing :=
  if title ≠ [] ∧ 3 < title.length ∧ 500 < price then
    some ⟨title.take 100, price, date, url, [], platform⟩
  else none

/-- Embedding of the guarded push of the second `parseAucfanResults`
variant (src/server.js lines 1508-1517): a candidate is emitted only
when its title is truthy, longer than 2 characters and its price is
positive; the pushed record clips the title with `substring(0, 100)`
(this variant pushes no platform field, modelled as the empty string). -/
def emitListingAlt (title : List Char) (price : ℕ)
    (date url : List Char) : Option Listing :=
  if title ≠ [] ∧ 2 < title.length ∧ 0 < price then
    some ⟨title.take 100, price, date, url, [], []⟩
  else none

/-- A listing with an innocuous title and the given price, as used by the
concrete end-to-end scenarios. -/
def plainListing (t : List Char) (p : ℕ) : Listing :=
  ⟨t, p, [], [], [], []⟩

/-- Scenario A input: listings whose prices are
1000, 1200, 1100, 50000, 1050 and whose titles trip no denylist term. -/
def scenarioAListings : List Listing :=
  [plainListing "itemone".data 1000,
   plainListing "itemtwo".data 1200,
   plainListing "itemthree".data 1100,
   plainListing "itemfour".data 50000,
   plainListing "itemfive".data 1050]

/-- The advertisement title of end-to-end scenario D. -/
def adTitle : List Char := "初月無料プレミアム会員登録".data

/-! Helper lemmas about the filtering pipeline. -/

/-- Stage C never adds listings: both its branches are sublists of its
input. -/
theorem stageC_sublist (recent : List Listing) : List.Sublist (stageC recent) recent := by
  rw [stageC]
  split
  · exact List.filter_sublist recent
  · exact List.take_sublist 10 recent

/-- The cleansed output is a sublist of the post-slice survivor list. -/
theorem filterRecent_sublist_recentOf (results : List Listing) :
    List.Sublist (filterRecentAndValidPrices results) (recentOf results) := by
  rw [filterRecentAndValidPrices]
  split
  · rename_i h0
    subst h0
    simp [recentOf, stageA]
  · split
    · exact stageC_sublist _
    · exact List.Sublist.refl _

/-- The post-slice survivor list is a sublist of the Stage A output. -/
theorem recentOf_sublist_stageA (results : List Listing) :
    List.Sublist (recentOf results) (stageA results) :=
  List.take_sublist 20 (stageA results)

/-- Every listing in the post-slice survivor list passed Stage A. -/
theorem stageAKeep_of_mem_recentOf {results : List Listing} {item : Listing}
    (h : item ∈ recentOf results) : stageAKeep item = true :=
  List.of_mem_filter ((recentOf_sublist_stageA results).subset h)

/-- Every listing in the post-slice survivor list has a price of at
least 500 (Stage A rejects anything below 500). -/
theorem price_ge_500_of_mem_recentOf {results : List Listing} {item : Listing}
    (h : item ∈ recentOf results) : 500 ≤ item.price := by
  have hk := stageAKeep_of_mem_recentOf h
  simp only [stageAKeep, Bool.not_eq_eq_eq_not, Bool.not_true,
    Bool.or_eq_false_iff, decide_eq_false_iff_not, Nat.not_lt] at hk
  exact hk.2

/-! Claim theorems. -/

/-- C1: for a listing set whose surviving prices are
[1000, 1200, 1100, 50000, 1050], the Stage C statistical-outlier
rejection (index-based quartiles, k = 1.5) excludes the price 50000 and
no other, and the resulting market report has count = 4 and
integer-rounded average price 1088. -/
theorem scenarioA_outlier_rejection :
    (filterRecentAndValidPrices scenarioAListings).map Listing.price =
      [1000, 1200, 1100, 1050] ∧
    (filterRecentAndValidPrices scenarioAListings).length = 4 ∧
    avgPriceOf (filterRecentAndValidPrices scenarioAListings) = 1088 := by
  decide

/-- C2: for a purchase evaluation with acquisitionPrice = 10000,
avgPrice = 9000 and count = 5 (fee rate 5%, tax rate 10%), the
evaluator returns totalCost = 11550, profit = -2550,
profitRatePercent = -22, and the Reject tier. -/
theorem scenarioB_reject_tier :
    evaluatePurchase 10000 9000 5 = ⟨Tier.reject, 11550⟩ ∧
    purchaseProfit 10000 9000 = -2550 ∧
    purchaseProfitRate 10000 9000 = -22 := by
  have htc : totalCostSingle 10000 = 11550 := by decide
  have hprofit : purchaseProfit 10000 9000 = -2550 := by
    rw [purchaseProfit, htc]
    decide
  have hrate : purchaseProfitRate 10000 9000 = -22 := by
    rw [purchaseProfitRate, hprofit, htc, jsRoundQ]
    norm_num
  refine ⟨?_, hprofit, hrate⟩
  rw [evaluatePurchase]
  simp only [hrate, htc]
  norm_num

/-- C3, counterexample: at acquisitionPrice = 4 the single-rounding
computation of `evaluatePurchase` yields 5 while the stepwise
computation of `processQuery` yields 4, so the two do not always
coincide. -/
theorem totalCost_single_vs_stepwise_counterexample :
    totalCostSingle 4 = 5 ∧ totalCostStep 4 = 4 ∧
    totalCostSingle 4 ≠ totalCostStep 4 := by
  decide

/-- C3, amended: for every positive acquisition price the
single-rounding computation of `evaluatePurchase` equals the
specification formula round(a × (1+feeRate) × (1+taxRate)), and the
stepwise computation of `processQuery` differs from it by at most 1
(they do differ, e.g. at acquisitionPrice = 4). -/
theorem totalCost_single_matches_spec_stepwise_within_one (a : ℕ)
    (h : 1 ≤ a) :
    (totalCostSingle a : ℤ) = specCostBasis a ∧
    ((totalCostStep a : ℤ) - (totalCostSingle a : ℤ)).natAbs ≤ 1 := by
  constructor
  · have harg : (a : ℚ) * (1 + 5 / 100) * (1 + 10 / 100) + 1 / 2 =
        ((462 * a + 200 : ℕ) : ℚ) / ((400 : ℕ) : ℚ) := by
      push_cast
      ring
    have hfloor : specCostBasis a = ((462 * a + 200) / 400 : ℕ) := by
      rw [specCostBasis, jsRoundQ, harg, Rat.floor_natCast_div_natCast,
        Int.ofNat_ediv]
    rw [hfloor, totalCostSingle, jsRoundNat]
    congr 1
    omega
  · simp only [totalCostStep, subtotalOf, consumptionTax, handlingFee,
      totalCostSingle, jsRoundNat]
    omega

/-- C3 witness: the amended bound evaluated at acquisitionPrice = 10. -/
theorem totalCost_single_matches_spec_stepwise_within_one_witness :
    (totalCostSingle 10 : ℤ) = specCostBasis 10 ∧
    ((totalCostStep 10 : ℤ) - (totalCostSingle 10 : ℤ)).natAbs ≤ 1 :=
  totalCost_single_matches_spec_stepwise_within_one 10 (by decide)

/-- C4, counterexample: on the buffer [0x80, 0xB1] the UTF-8, Shift_JIS
and EUC-JP decodings all contain U+FFFD, yet `decodeResponse` returns
the Shift_JIS decoding "�ｱ", which differs from the UTF-8 decoding
"��". -/
theorem decodeResponse_all_corrupt_counterexample :
    containsRepl (utf8DecModel [0x80, 0xB1]) = true ∧
    containsRepl (sjisDecModel [0x80, 0xB1]) = true ∧
    containsRepl (eucDecModel [0x80, 0xB1]) = true ∧
    decodeResponse utf8DecModel sjisDecModel eucDecModel [0x80, 0xB1] ≠
      utf8DecModel [0x80, 0xB1] := by
  decide

/-- C4, amended: for every input byte buffer whose UTF-8 decoding
contains the replacement character and for which every legacy
East-Asian candidate encoding also produces a replacement character,
the Encoding Resolver returns the Shift_JIS decoding of the buffer (the
first legacy candidate), not the UTF-8 decoding. -/
theorem decodeResponse_all_corrupt_returns_sjis
    (utf8Dec sjisDec eucDec : List ℕ → List Char) (buffer : List ℕ)
    (hu : containsRepl (utf8Dec buffer) = true)
    (hs : containsRepl (sjisDec buffer) = true)
    (he : containsRepl (eucDec buffer) = true) :
    decodeResponse utf8Dec sjisDec eucDec buffer = sjisDec buffer := by
  rw [decodeResponse]
  simp [hu, hs, he]

/-- C4 witness: the amended theorem evaluated on the concrete decoder
models and the buffer [0x80, 0xB1]. -/
theorem decodeResponse_all_corrupt_returns_sjis_witness :
    decodeResponse utf8DecModel sjisDecModel eucDecModel [0x80, 0xB1] =
      sjisDecModel [0x80, 0xB1] :=
  decodeResponse_all_corrupt_returns_sjis utf8DecModel sjisDecModel
    eucDecModel [0x80, 0xB1] (by decide) (by decide) (by decide)

/-- C5: for every input list of raw listings, the cleanse function's
output is an order-preserving subsequence of its input (so every output
listing occurs in the input and the output price multiset is contained
in the input price multiset), and the same holds of the price lists. -/
theorem filterRecentAndValidPrices_sublist (results : List Listing) :
    List.Sublist (filterRecentAndValidPrices results) results ∧
    List.Sublist ((filterRecentAndValidPrices results).map Listing.price)
      (results.map Listing.price) := by
  have h : List.Sublist (filterRecentAndValidPrices results) results :=
    ((filterRecent_sublist_recentOf results).trans
      (recentOf_sublist_stageA results)).trans (List.filter_sublist results)
  exact ⟨h, h.map Listing.price⟩

/-- C6: the Price Normalizer returns a non-negative integer for every
input string, returns 0 for the empty string and for any string
containing no ASCII digit, and returns 12345 for the input "¤12,345":
it strips every non-digit character and parses the remaining digits as
a base-10 integer. -/
theorem extractPrice_normalizer_spec :
    (∀ s : List Char, 0 ≤ extractPrice s) ∧
    extractPrice "".data = 0 ∧
    (∀ s : List Char, (∀ c ∈ s, c.isDigit = false) → extractPrice s = 0) ∧
    extractPrice "¤12,345".data = 12345 := by
  refine ⟨fun s => Nat.zero_le _, by decide, fun s h => ?_, by decide⟩
  have hnil : s.filter Char.isDigit = [] :=
    List.filter_eq_nil_iff.2 (by simpa using h)
  rw [extractPrice]
  split
  · rfl
  · simp [hnil]

/-- C6 witness: the no-digit clause evaluated on the digitless string
"abc". -/
theorem extractPrice_normalizer_spec_witness :
    extractPrice "abc".data = 0 :=
  extractPrice_normalizer_spec.2.2.1 "abc".data (by decide)

/-- C7: for every input list, any listing whose title is
"初月無料プレミアム会員登録" is removed by Stage A ad/noise filtering,
regardless of the other listings present: its lower-cased title
contains a term of the advertisement-keyword denylist, so it never
appears in the cleansed output. -/
theorem adTitle_never_in_output (results : List Listing) (item : Listing)
    (hmem : item ∈ filterRecentAndValidPrices results) :
    item.title ≠ adTitle := by
  intro htitle
  have hrec : item ∈ recentOf results :=
    (filterRecent_sublist_recentOf results).subset hmem
  have hk := stageAKeep_of_mem_recentOf hrec
  simp only [stageAKeep, htitle, Bool.not_eq_eq_eq_not, Bool.not_true,
    Bool.or_eq_false_iff] at hk
  have had : (adKeywords.any fun kw => jsIncludes (adTitle.map jsToLower) kw)
      = true := by decide
  rw [had] at hk
  exact absurd hk.1 (by decide)

/-- C7 witness: a clean listing that survives the filter indeed has a
title other than the advertisement title. -/
theorem adTitle_never_in_output_witness :
    (plainListing "itemone".data 1000).title ≠ adTitle :=
  adTitle_never_in_output [plainListing "itemone".data 1000]
    (plainListing "itemone".data 1000) (by decide)

/-- C8: for every acquisition price, whenever the report has count = 0
or avgPrice = 0, the purchase evaluation returns the NoData tier and
its totalCost equals the raw acquisition price unchanged (no fee/tax
inflation is applied). -/
theorem evaluatePurchase_noData (a avg count : ℕ)
    (h : avg = 0 ∨ count = 0) :
    evaluatePurchase a avg count = ⟨Tier.noData, a⟩ := by
  rw [evaluatePurchase, if_pos h]

/-- C8 witness: the no-data evaluation at acquisition price 12345 with
an empty report. -/
theorem evaluatePurchase_noData_witness :
    evaluatePurchase 12345 4000 0 = ⟨Tier.noData, 12345⟩ :=
  evaluatePurchase_noData 12345 4000 0 (Or.inr rfl)

/-- C9, counterexample: the second-variant guard (src/server.js lines
1508-1517) emits a candidate whose title has exactly 3 characters and
whose price is 1, so emitted listings need not have more than 3 title
characters nor a price above 500. -/
theorem emit_title_length_three_counterexample :
    emitListingAlt "abc".data 1 [] [] =
      some ⟨"abc".data, 1, [], [], [], []⟩ ∧
    (⟨"abc".data, 1, [], [], [], []⟩ : Listing).title.length = 3 := by
  decide

/-- C9, amended: every RawListing emitted by the Listing Extractor has
a title of more than 2 characters, clipped to at most 100 characters,
and a strictly positive price; the first-variant guard (lines 323-339)
additionally guarantees more than 3 title characters and a price above
500. -/
theorem emitted_listing_invariants (t : List Char) (p : ℕ)
    (d u pf : List Char) (l : Listing) :
    (emitListingMain t p d u pf = some l →
       3 < l.title.length ∧ l.title.length ≤ 100 ∧ 500 < l.price) ∧
    (emitListingAlt t p d u = some l →
       2 < l.title.length ∧ l.title.length ≤ 100 ∧ 0 < l.price) := by
  constructor
  · intro h
    rw [emitListingMain] at h
    split at h
    · rename_i hg
      cases h
      obtain ⟨-, h3, hp⟩ := hg
      refine ⟨?_, ?_, hp⟩
      · simp only [List.length_take]
        omega
      · simp only [List.length_take]
        omega
    · exact Option.noConfusion h
  · intro h
    rw [emitListingAlt] at h
    split at h
    · rename_i hg
      cases h
      obtain ⟨-, h3, hp⟩ := hg
      refine ⟨?_, ?_, hp⟩
      · simp only [List.length_take]
        omega
      · simp only [List.length_take]
        omega
    · exact Option.noConfusion h

/-- C9 witness: the amended invariants evaluated on a concrete
candidate accepted by the first-variant guard. -/
theorem emitted_listing_invariants_witness :
    3 < (⟨"abcd".data, 501, [], [], [], []⟩ : Listing).title.length ∧
    (⟨"abcd".data, 501, [], [], [], []⟩ : Listing).title.length ≤ 100 ∧
    500 < (⟨"abcd".data, 501, [], [], [], []⟩ : Listing).price :=
  (emitted_listing_invariants "abcd".data 501 [] [] []
    ⟨"abcd".data, 501, [], [], [], []⟩).1 (by decide)

/-- C10: whenever the Stage C outlier rejection runs (at least 5
survivors after Stage A and the recency cut), its result is non-empty,
so the fallback branch that returns the first 10 pre-rejection listings
is unreachable: every surviving price is at least 500, hence a listing
whose price equals the index-based first quartile survives the
rejection, and the cleansed output is exactly the IQR-filtered list. -/
theorem stageC_fallback_unreachable (results : List Listing)
    (h5 : 5 ≤ (recentOf results).length) :
    0 < ((recentOf results).filter
        (iqrKeep (q1Of (recentOf results)) (q3Of (recentOf results)))).length ∧
    filterRecentAndValidPrices results =
      (recentOf results).filter
        (iqrKeep (q1Of (recentOf results)) (q3Of (recentOf results))) := by
  have hperm : (sortedPricesOf (recentOf results)).Perm
      ((recentOf results).map Listing.price) :=
    List.perm_insertionSort _ _
  have hlen : (sortedPricesOf (recentOf results)).length =
      (recentOf results).length := by
    rw [hperm.length_eq, List.length_map]
  have hn5 : 5 ≤ (sortedPricesOf (recentOf results)).length := by omega
  have hi1 : (sortedPricesOf (recentOf results)).length / 4 <
      (sortedPricesOf (recentOf results)).length := by omega
  have hi3 : 3 * (sortedPricesOf (recentOf results)).length / 4 <
      (sortedPricesOf (recentOf results)).length := by omega
  have hq1 : q1Of (recentOf results) =
      (sortedPricesOf (recentOf results)).get ⟨_, hi1⟩ := by
    rw [q1Of, List.getD_eq_getElem _ _ hi1]
    rfl
  have hq3 : q3Of (recentOf results) =
      (sortedPricesOf (recentOf results)).get ⟨_, hi3⟩ := by
    rw [q3Of, List.getD_eq_getElem _ _ hi3]
    rfl
  have hsorted : (sortedPricesOf (recentOf results)).Sorted (· ≤ ·) :=
    List.sorted_insertionSort _ _
  have hq13 : q1Of (recentOf results) ≤ q3Of (recentOf results) := by
    rw [hq1, hq3]
    exact hsorted.rel_get_of_le (by simp [Fin.le_def]; omega)
  have hq1mem : q1Of (recentOf results) ∈
      (recentOf results).map Listing.price := by
    rw [hq1]
    exact hperm.subset (List.get_mem _ _ _)
  obtain ⟨itemW, hitemW, hpriceW⟩ := List.mem_map.1 hq1mem
  have h500 : 500 ≤ itemW.price := price_ge_500_of_mem_recentOf hitemW
  have hkeep : iqrKeep (q1Of (recentOf results)) (q3Of (recentOf results))
      itemW = true := by
    simp only [iqrKeep, Bool.and_eq_true, decide_eq_true_eq]
    rw [hpriceW] at h500 ⊢
    omega
  have hpos : 0 < ((recentOf results).filter
      (iqrKeep (q1Of (recentOf results)) (q3Of (recentOf results)))).length :=
    List.length_pos.2 (List.ne_nil_of_mem (List.mem_filter.2 ⟨hitemW, hkeep⟩))
  refine ⟨hpos, ?_⟩
  have hne : results ≠ [] := by
    intro h0
    rw [h0] at h5
    simp [recentOf, stageA] at h5
  rw [filterRecentAndValidPrices, if_neg hne, if_pos h5, stageC, if_pos hpos]

/-- C10 witness: on the Scenario A listings the recency cut has 5
entries and the IQR filter returns a non-empty list equal to the
pipeline's output. -/
theorem stageC_fallback_unreachable_witness :
    0 < ((recentOf scenarioAListings).filter
        (iqrKeep (q1Of (recentOf scenarioAListings))
          (q3Of (recentOf scenarioAListings)))).length ∧
    filterRecentAndValidPrices scenarioAListings =
      (recentOf scenarioAListings).filter
        (iqrKeep (q1Of (recentOf scenarioAListings))
          (q3Of (recentOf scenarioAListings))) :=
  stageC_fallback_unreachable scenarioAListings (by decide)

end Scraper
